import Mathlib

/-!
Verification of the ashengine physics core against its specification.

The Rust sources under `src/engine/src/physics/` and
`src/engine/src/ecs/system/physics_bridge.rs` are shallowly embedded here:

* machine integers (`u64`/`usize` handles, sizes, offsets, indices) are
  modelled as `ℕ`; none of the verified scenarios comes near `2 ^ 64`, and
  the one bit-twiddling spot (`find_free_block`'s alignment rounding) is
  embedded with an explicit 64-bit mask;
* `f32` values are modelled as exact rationals `ℚ`.  Every float operation
  used by the embedded code paths (add, sub, mul, div, floor, comparison,
  clamping, doubling/halving) is exact on the inputs that appear in the
  claims; `f32::sqrt`, which is not exact, is kept abstract as a function
  parameter `sq : ℚ → ℚ` so that no theorem depends on a fabricated
  square-root model;
* Vulkan device memory handles (`vk::DeviceMemory`) are modelled as fresh
  natural numbers handed out by a counter in the pool state, and the device
  allocation call is modelled as always succeeding (its failure path in the
  source propagates `OutOfMemory` without producing an offset, so it never
  contributes an allocation result);
* `rayon` parallel loops are modelled sequentially in index order; every
  statement proved about them is order-insensitive (set membership,
  per-element field equalities).
-/

set_option maxHeartbeats 1000000

namespace AshEngine

/-! ## Memory pool (src/engine/src/physics/memory.rs)

`MemoryPool` keeps a flat list of `MemoryBlock`s, a `free_blocks` queue of
indices into that list, and running `total_size` / `used_size` counters.
Each block is one whole `vk::DeviceMemory` allocation; the pool never
splits a block. -/

/-- `MIN_POOL_SIZE` from memory.rs line 6: 1MB minimum pool size. -/
def MIN_POOL_SIZE : ℕ := 1024 * 1024

/-- `MAX_POOL_SIZE` from memory.rs line 7: 256MB maximum pool size. -/
def MAX_POOL_SIZE : ℕ := 256 * 1024 * 1024

/-- `MemoryBlock` from memory.rs lines 9-14.  `memory` is the device memory
handle (modelled as `ℕ`). -/
structure MemoryBlock where
  memory : ℕ
  size : ℕ
  offset : ℕ
  is_free : Bool
  deriving DecidableEq

instance : Inhabited MemoryBlock := ⟨⟨0, 0, 0, false⟩⟩

/-- `MemoryPool` from memory.rs lines 16-24, minus the `device` handle.
`next_handle` models the device: `allocate_memory` returns a fresh handle. -/
structure MemoryPool where
  blocks : List MemoryBlock
  free_blocks : List ℕ
  total_size : ℕ
  used_size : ℕ
  block_size : ℕ
  next_handle : ℕ
  deriving DecidableEq

/-- `MemoryStats` from memory.rs lines 157-164 (block counts as `ℕ`, not
`u32`; they stay tiny in every scenario considered). -/
structure MemoryStats where
  total_size : ℕ
  used_size : ℕ
  free_size : ℕ
  block_count : ℕ
  free_block_count : ℕ
  deriving DecidableEq

namespace MemoryPool

/-- `MemoryPool::new` (memory.rs lines 27-43): clamps the requested initial
size into `[MIN_POOL_SIZE, MAX_POOL_SIZE]` and starts with no blocks. -/
def new (initial_size : ℕ) : MemoryPool :=
  { blocks := []
    free_blocks := []
    total_size := 0
    used_size := 0
    block_size := min (max initial_size MIN_POOL_SIZE) MAX_POOL_SIZE
    next_handle := 0 }

/-- The u64 expression `(offset + alignment - 1) & !(alignment - 1)` from
memory.rs line 118.  `!(x)` is 64-bit bitwise complement.  Callers pass
`alignment ≥ 1`; `ℕ` truncated subtraction stands in for the debug-mode
underflow panic at `alignment = 0`. -/
def alignUp (offset alignment : ℕ) : ℕ :=
  Nat.land (offset + alignment - 1) (Nat.xor (2 ^ 64 - 1) (alignment - 1))

/-- `MemoryPool::find_free_block` (memory.rs lines 113-125): scan the
`free_blocks` queue in order for a block that is free, large enough, and
satisfies the alignment check.  An index pointing past the end of `blocks`
(unreachable through the public API in the verified scenarios) is skipped;
in Rust it would panic. -/
def find_free_block (p : MemoryPool) (size alignment : ℕ) : Option ℕ :=
  p.free_blocks.find? fun index =>
    match p.blocks.get? index with
    | some block =>
        block.is_free && size ≤ block.size &&
          alignUp block.offset alignment + size ≤ block.offset + block.size
    | none => false

/-- `MemoryPool::allocate` (memory.rs lines 45-85).  Returns the updated
pool together with the `(memory, offset)` pair.  Reusing a free block marks
it used and returns its stored offset; otherwise a fresh device block of
size `max size block_size` is appended at offset 0.  The device allocation
is modelled as always succeeding (see the file comment). -/
def allocate (p : MemoryPool) (size alignment : ℕ) : MemoryPool × ℕ × ℕ :=
  match p.find_free_block size alignment with
  | some block_index =>
      let block := p.blocks.getD block_index default
      ({ p with
          blocks := p.blocks.set block_index { block with is_free := false }
          used_size := p.used_size + size },
        block.memory, block.offset)
  | none =>
      let new_block_size := max size p.block_size
      let memory := p.next_handle
      let block : MemoryBlock :=
        { memory := memory, size := new_block_size, offset := 0, is_free := false }
      ({ p with
          blocks := p.blocks ++ [block]
          total_size := p.total_size + new_block_size
          used_size := p.used_size + size
          next_handle := p.next_handle + 1 },
        memory, 0)

/-- The loop of `MemoryPool::coalesce_free_blocks` (memory.rs lines
127-144): while `i < blocks.len() - 1`, merge `blocks[i]` and
`blocks[i+1]` whenever both are free (the removed index `i + 1` is also
erased from the free queue), else advance `i`.  The guard is written
`i + 1 < blocks.length`, which agrees with the Rust guard whenever the
block list is nonempty — and `free` only calls this after finding a
block.  The `fuel` argument makes the recursion structural: each loop
iteration strictly decreases `blocks.length - i`, so starting the fuel at
`blocks.length` (as `coalesce_free_blocks` does) the zero-fuel branch is
never reached. -/
def coalesceAux : ℕ → List MemoryBlock → List ℕ → ℕ → List MemoryBlock × List ℕ
  | 0, blocks, free_blocks, _ => (blocks, free_blocks)
  | fuel + 1, blocks, free_blocks, i =>
    if i + 1 < blocks.length then
      let cur := blocks.getD i default
      let nxt := blocks.getD (i + 1) default
      if cur.is_free && nxt.is_free then
        coalesceAux fuel
          ((blocks.eraseIdx (i + 1)).set i { cur with size := cur.size + nxt.size })
          (free_blocks.erase (i + 1)) i
      else
        coalesceAux fuel blocks free_blocks (i + 1)
    else
      (blocks, free_blocks)

/-- `MemoryPool::coalesce_free_blocks` (memory.rs lines 127-144). -/
def coalesce_free_blocks (p : MemoryPool) : MemoryPool :=
  let result := coalesceAux p.blocks.length p.blocks p.free_blocks 0
  { p with blocks := result.1, free_blocks := result.2 }

/-- `MemoryPool::free` (memory.rs lines 87-99): find the block with the
given memory handle and offset, mark it free, push its index onto the free
queue and coalesce.  Note that `used_size` is not touched. -/
def free (p : MemoryPool) (memory offset : ℕ) : MemoryPool :=
  match p.blocks.findIdx? (fun block => block.memory = memory && block.offset = offset) with
  | some index =>
      let block := p.blocks.getD index default
      coalesce_free_blocks
        { p with
            blocks := p.blocks.set index { block with is_free := true }
            free_blocks := p.free_blocks ++ [index] }
  | none => p

/-- `MemoryPool::get_stats` (memory.rs lines 146-154).  `free_size` is the
u64 difference `total_size - used_size` (truncated subtraction models it;
no verified scenario makes `used_size` exceed `total_size`). -/
def get_stats (p : MemoryPool) : MemoryStats :=
  { total_size := p.total_size
    used_size := p.used_size
    free_size := p.total_size - p.used_size
    block_count := p.blocks.length
    free_block_count := p.free_blocks.length }

end MemoryPool

/-- A client-visible pool operation: the argument lists of
`MemoryPool::allocate` and `MemoryPool::free`. -/
inductive PoolOp where
  | alloc (size alignment : ℕ)
  | free (memory offset : ℕ)
  deriving DecidableEq

/-- Run a list of operations against a pool, collecting the
`(memory, offset)` pair returned by each `allocate` call. -/
def MemoryPool.runOps : MemoryPool → List PoolOp → MemoryPool × List (ℕ × ℕ)
  | p, [] => (p, [])
  | p, PoolOp.alloc size alignment :: rest =>
      let step := p.allocate size alignment
      let tailResult := step.1.runOps rest
      (tailResult.1, step.2 :: tailResult.2)
  | p, PoolOp.free memory offset :: rest => (p.free memory offset).runOps rest

/-- Every block of the pool sits at offset 0 (the pool never creates a
block at a nonzero offset and never splits one). -/
def MemoryPool.allOffsetsZero (p : MemoryPool) : Prop :=
  ∀ b ∈ p.blocks, b.offset = 0

/-- Scenario for claim C1: a fresh 1MB pool, one 64-byte allocation. -/
def c1AllocResult : MemoryPool × ℕ × ℕ := (MemoryPool.new (1024 * 1024)).allocate 64 1

/-- Scenario for claim C1, continued: free the allocation just made. -/
def c1PoolAfterFree : MemoryPool :=
  c1AllocResult.1.free c1AllocResult.2.1 c1AllocResult.2.2

/-- Scenario for claim C2: a pool holding two allocated adjacent regions
`(offset 0, size 64)` and `(offset 64, size 64)` of the same device memory
(handle 7), listed in offset order. -/
def c2StartPool : MemoryPool :=
  { blocks := [⟨7, 64, 0, false⟩, ⟨7, 64, 64, false⟩]
    free_blocks := []
    total_size := 128
    used_size := 128
    block_size := MIN_POOL_SIZE
    next_handle := 8 }

/-! ## Island partitioning (src/engine/src/physics/solver.rs)

`IslandSolver::build_islands` needs only the number of objects and the
constraint list of the `PhysicsWorld`; objects' kinematic state never
enters the connectivity computation.  The rayon `par_iter` over starting
indices (solver.rs lines 253-265) collects islands under a mutex; it is
modelled sequentially in index order. -/

/-- The three `Constraint` implementations of constraints.rs
(`DistanceConstraint`, `VolumeConstraint`, `CollisionConstraint`), reduced
to the data a `Box<dyn Constraint>` carries that could identify connected
objects.  `IslandSolver::get_connected_objects` ignores its argument
entirely, so only the shape matters here. -/
inductive ConstraintData where
  | distance (object1_index object2_index : ℕ) (rest_distance : ℚ)
  | volume (object_index : ℕ) (stiffness : ℚ)
  | collision (object1_index object2_index : ℕ)
  deriving DecidableEq

instance : Inhabited ConstraintData := ⟨ConstraintData.distance 0 0 0⟩

/-- `IslandSolver::get_connected_objects` (solver.rs lines 292-299): the
body is `Vec::new()` for every constraint, flagged by the source's own
comment as a placeholder to be implemented. -/
def getConnectedObjects (_constraint : ConstraintData) : List ℕ := []

/-- `Island` from solver.rs lines 217-221. -/
structure Island where
  objects : List ℕ
  constraints : List ℕ
  deriving DecidableEq

/-- The slice of `PhysicsWorld` that `build_islands` reads: the object
count and the constraint list. -/
structure IslandWorld where
  numObjects : ℕ
  constraints : List ConstraintData

/-- The connection-graph construction in `build_islands` (solver.rs lines
243-248): for each constraint `i`, push `i` onto
`island_connections[connected]` for every connected object.  A
`connected` index out of range is a no-op here (Rust would panic). -/
def buildConnections (w : IslandWorld) : List (List ℕ) :=
  w.constraints.enum.foldl
    (fun conns ic =>
      (getConnectedObjects ic.2).foldl
        (fun cs connected => cs.set connected (cs.getD connected [] ++ [ic.1])) conns)
    (List.replicate w.numObjects [])

/-- `IslandSolver::parallel_dfs` (solver.rs lines 270-290), with the
visited bitmap and the island accumulated explicitly.  The recursion is
made structural on a fuel argument; one unit of fuel is spent per nested
visit, and each visit marks one more object visited, so the
`numObjects + 1` fuel supplied by `buildIslands` can never run out. -/
def parallelDfs (w : IslandWorld) (connections : List (List ℕ)) :
    ℕ → ℕ → List Bool × Island → List Bool × Island
  | 0, _, st => st
  | fuel + 1, object_index, st =>
    if st.1.getD object_index false then st
    else
      let start : List Bool × Island :=
        (st.1.set object_index true,
          { st.2 with objects := st.2.objects ++ [object_index] })
      (connections.getD object_index []).foldl
        (fun st1 constraint_index =>
          let st1 : List Bool × Island :=
            (st1.1, { st1.2 with constraints := st1.2.constraints ++ [constraint_index] })
          (getConnectedObjects (w.constraints.getD constraint_index default)).foldl
            (fun st2 connected =>
              if st2.1.getD connected false then st2
              else parallelDfs w connections fuel connected st2)
            st1)
        start

/-- `IslandSolver::build_islands` (solver.rs lines 238-268): reset the
visited bitmap, build the connection graph, then start a traversal from
every not-yet-visited object index and collect the nonempty islands. -/
def buildIslands (w : IslandWorld) : List Island :=
  let connections := buildConnections w
  ((List.range w.numObjects).foldl
    (fun (st : List Bool × List Island) i =>
      if st.1.getD i false then st
      else
        let result := parallelDfs w connections (w.numObjects + 1) i (st.1, ⟨[], []⟩)
        if result.2.objects.isEmpty then (result.1, st.2)
        else (result.1, st.2 ++ [result.2]))
    (List.replicate w.numObjects false, [])).2

/-- Scenario for claim C3: a world with two objects and one
`DistanceConstraint` joining objects 0 and 1. -/
def c3World : IslandWorld :=
  { numObjects := 2, constraints := [ConstraintData.distance 0 1 1] }

/-! ## Rational geometry

`glam::Vec3`, `glam::Vec4` and `glam::Quat` with `f32` components replaced
by exact rationals.  The square root (used by `length`/`normalize`) is not
exact on `f32` or on `ℚ`, so it stays an explicit function parameter
`sq : ℚ → ℚ` of every definition that needs it. -/

/-- `glam::Vec3` over `ℚ`. -/
structure Vec3q where
  x : ℚ
  y : ℚ
  z : ℚ
  deriving DecidableEq

instance : Add Vec3q := ⟨fun a b => ⟨a.x + b.x, a.y + b.y, a.z + b.z⟩⟩

instance : Sub Vec3q := ⟨fun a b => ⟨a.x - b.x, a.y - b.y, a.z - b.z⟩⟩

instance : Neg Vec3q := ⟨fun a => ⟨-a.x, -a.y, -a.z⟩⟩

instance : Zero Vec3q := ⟨⟨0, 0, 0⟩⟩

/-- Vector-times-scalar, `v * s` in glam. -/
instance : HMul Vec3q ℚ Vec3q := ⟨fun v s => ⟨v.x * s, v.y * s, v.z * s⟩⟩

/-- Scalar-times-vector, `s * v` in glam. -/
instance : HMul ℚ Vec3q Vec3q := ⟨fun s v => ⟨s * v.x, s * v.y, s * v.z⟩⟩

/-- `Vec3::splat`. -/
def Vec3q.splat (s : ℚ) : Vec3q := ⟨s, s, s⟩

/-- `Vec3::dot`. -/
def Vec3q.dot (a b : Vec3q) : ℚ := a.x * b.x + a.y * b.y + a.z * b.z

/-- `Vec3::cross`. -/
def Vec3q.cross (a b : Vec3q) : Vec3q :=
  ⟨a.y * b.z - a.z * b.y, a.z * b.x - a.x * b.z, a.x * b.y - a.y * b.x⟩

/-- `Vec3::length`, i.e. `sqrt(self.dot(self))`, with the square root
abstract. -/
def Vec3q.length (sq : ℚ → ℚ) (v : Vec3q) : ℚ := sq (v.dot v)

/-- `Vec3::normalize`: `self * (1 / length)`.  (On the zero vector glam
produces non-finite components; here `1 / 0 = 0`.  No theorem in this file
depends on that corner.) -/
def Vec3q.normalize (sq : ℚ → ℚ) (v : Vec3q) : Vec3q := v * (1 / v.length sq)

/-- Componentwise `Vec3::clamp(min, max)` = `self.max(min).min(max)`. -/
def Vec3q.clamp (v lo hi : Vec3q) : Vec3q :=
  ⟨min (max v.x lo.x) hi.x, min (max v.y lo.y) hi.y, min (max v.z lo.z) hi.z⟩

/-- `glam::Vec4` over `ℚ` (used for bounding boxes: min extents plus the
half-size radius in `w`). -/
structure Vec4q where
  x : ℚ
  y : ℚ
  z : ℚ
  w : ℚ
  deriving DecidableEq

/-- `glam::Quat` over `ℚ`. -/
structure Quatq where
  x : ℚ
  y : ℚ
  z : ℚ
  w : ℚ
  deriving DecidableEq

/-- `Quat::conjugate`. -/
def Quatq.conjugate (q : Quatq) : Quatq := ⟨-q.x, -q.y, -q.z, q.w⟩

/-- `Quat::mul_vec3` (glam's scalar-math path):
`rhs * (w² - b·b) + b * (rhs·b * 2) + (b × rhs) * (w * 2)` with
`b = (x, y, z)`. -/
def Quatq.mulVec3 (q : Quatq) (rhs : Vec3q) : Vec3q :=
  let b : Vec3q := ⟨q.x, q.y, q.z⟩
  let b2 : ℚ := b.dot b
  rhs * (q.w * q.w - b2) + b * (rhs.dot b * 2) + b.cross rhs * (q.w * 2)

/-! ## Spatial hash / broad phase (src/engine/src/physics/spatial.rs)

The grid is a `HashMap<GridCell, Vec<usize>>`; it is modelled as an
insertion-ordered association list with unique keys, which determinizes
the map's iteration order (every property proved about it is
order-insensitive).  `SpatialHash::resize` decides between keeping,
doubling or halving the cell size by comparing
`cells_used / grid.capacity()` against `0.75` and `0.75 / 4`;
`HashMap::capacity()` is an unspecified internal of `std`, so that
three-way decision is modelled as an explicit oracle argument
(`SizeAdj`) supplied per `insert` call, and the theorems below quantify
over every oracle choice — they hold whatever the real capacities do. -/

/-- `CELL_SIZE` from spatial.rs line 5. -/
def CELL_SIZE : ℚ := 10

/-- `GridCell` from spatial.rs lines 8-13 (`i32` coordinates as `ℤ`; the
`as i32` cast from `f32` saturates, see `i32cast`). -/
structure GridCell where
  x : ℤ
  y : ℤ
  z : ℤ
  deriving DecidableEq

/-- Rust's saturating float-to-`i32` cast applied after `floor`. -/
def i32cast (z : ℤ) : ℤ := max (-(2 ^ 31 : ℤ)) (min ((2 ^ 31 : ℤ) - 1) z)

/-- `SpatialHash::position_to_cell` (spatial.rs lines 42-48). -/
def positionToCell (cell_size : ℚ) (p : Vec3q) : GridCell :=
  ⟨i32cast ⌊p.x / cell_size⌋, i32cast ⌊p.y / cell_size⌋, i32cast ⌊p.z / cell_size⌋⟩

/-- The inclusive integer range `a..=b` as a list. -/
def intRangeIcc (a b : ℤ) : List ℤ :=
  (List.range (b + 1 - a).toNat).map fun k => a + k

/-- The set of grid cells overlapped by the AABB `[mn, mx]`: the triple
loop `min_cell.x..=max_cell.x` × `..y..` × `..z..` from
`SpatialHash::insert` (spatial.rs lines 102-110), in loop order. -/
def cellsCovered (cell_size : ℚ) (mn mx : Vec3q) : List GridCell :=
  let min_cell := positionToCell cell_size mn
  let max_cell := positionToCell cell_size mx
  (intRangeIcc min_cell.x max_cell.x).flatMap fun x =>
    (intRangeIcc min_cell.y max_cell.y).flatMap fun y =>
      (intRangeIcc min_cell.z max_cell.z).map fun z => GridCell.mk x y z

/-- The decision `SpatialHash::resize` (spatial.rs lines 57-64) takes from
the load factor `cells_used as f32 / grid.capacity() as f32`: `double`
when it exceeds `LOAD_FACTOR_THRESHOLD = 0.75` (coarser grid), `halve`
when it is below `0.75 / 4`, `keep` otherwise.  The capacity is internal
to `std`'s `HashMap`, so the decision enters the model as an oracle. -/
inductive SizeAdj where
  | keep
  | double
  | halve
  deriving DecidableEq

/-- `SpatialHash` from spatial.rs lines 16-22. -/
structure SpatialHash where
  cell_size : ℚ
  grid : List (GridCell × List ℕ)
  object_cells : List (List GridCell)
  total_objects : ℕ
  cells_used : ℕ

namespace SpatialHash

/-- `SpatialHash::new` (spatial.rs lines 25-33). -/
def new : SpatialHash :=
  { cell_size := CELL_SIZE
    grid := []
    object_cells := []
    total_objects := 0
    cells_used := 0 }

/-- `SpatialHash::insert_to_cell` (spatial.rs lines 82-87): count a fresh
key, then `entry(cell).or_default().push(object_index)`. -/
def insert_to_cell (s : SpatialHash) (cell : GridCell) (object_index : ℕ) : SpatialHash :=
  if s.grid.any (fun e => e.1 == cell) then
    { s with
        grid := s.grid.map fun e => if e.1 == cell then (e.1, e.2 ++ [object_index]) else e }
  else
    { s with
        cells_used := s.cells_used + 1
        grid := s.grid ++ [(cell, [object_index])] }

/-- The grid-rebuild loop of `SpatialHash::resize` (spatial.rs lines
66-79): empty the grid and the cell counter, then for every object
occurrence in the old grid re-insert all of that object's tracked cells
(looked up in `object_cells`, bounds-checked as in the source). -/
def rebuildGrid (s : SpatialHash) : SpatialHash :=
  let old_grid := s.grid
  old_grid.foldl
    (fun acc entry =>
      entry.2.foldl
        (fun acc2 obj_idx =>
          if obj_idx < acc2.object_cells.length then
            (acc2.object_cells.getD obj_idx []).foldl
              (fun acc3 cell => insert_to_cell acc3 cell obj_idx) acc2
          else acc2)
        acc)
    { s with grid := [], cells_used := 0 }

/-- `SpatialHash::resize` (spatial.rs lines 57-80): double the cell size
above load factor `0.75`, halve it below `0.75 / 4` (decision supplied by
the `SizeAdj` oracle, see its doc), else return; on a change, rebuild the
grid. -/
def resize (adj : SizeAdj) (s : SpatialHash) : SpatialHash :=
  match adj with
  | SizeAdj.double => rebuildGrid { s with cell_size := s.cell_size * 2 }
  | SizeAdj.halve => rebuildGrid { s with cell_size := s.cell_size / 2 }
  | SizeAdj.keep => s

/-- The body of `SpatialHash::insert` (spatial.rs lines 89-114) before the
final `resize` call: grow `object_cells` to cover `object_index`, compute
the covered cell range, clear the object's tracked cell list (note: only
the tracking list — the grid itself is not touched), then walk the covered
cells appending to the grid and to the tracking list, and count the
insertion. -/
def insertCore (object_index : ℕ) (mn mx : Vec3q) (s : SpatialHash) : SpatialHash :=
  let s :=
    if s.object_cells.length ≤ object_index then
      { s with
          object_cells :=
            s.object_cells ++ List.replicate (object_index + 1 - s.object_cells.length) [] }
    else s
  let min_cell := positionToCell s.cell_size mn
  let max_cell := positionToCell s.cell_size mx
  let s := { s with object_cells := s.object_cells.set object_index [] }
  let s :=
    (intRangeIcc min_cell.x max_cell.x).foldl
      (fun sx x =>
        (intRangeIcc min_cell.y max_cell.y).foldl
          (fun sy y =>
            (intRangeIcc min_cell.z max_cell.z).foldl
              (fun sz z =>
                let cell : GridCell := ⟨x, y, z⟩
                let sz := insert_to_cell sz cell object_index
                { sz with
                    object_cells :=
                      sz.object_cells.set object_index
                        (sz.object_cells.getD object_index [] ++ [cell]) })
              sy)
          sx)
      s
  { s with total_objects := s.total_objects + 1 }

/-- `SpatialHash::insert` (spatial.rs lines 89-114): the insertion body
followed by the `resize()` call, whose load-factor decision is the
`SizeAdj` oracle argument. -/
def insert (adj : SizeAdj) (object_index : ℕ) (mn mx : Vec3q) (s : SpatialHash) : SpatialHash :=
  resize adj (insertCore object_index mn mx s)

end SpatialHash

/-- The pair normalization in `get_potential_pairs` (spatial.rs lines
145-151): store the unordered pair `{a, b}` as `(min, max)`. -/
def normPair (a b : ℕ) : ℕ × ℕ := if a < b then (a, b) else (b, a)

/-- The double loop of `get_potential_pairs` over one cell's object list:
every position pair `i < j`, normalized. -/
def listPairs : List ℕ → List (ℕ × ℕ)
  | [] => []
  | a :: rest => (rest.map fun b => normPair a b) ++ listPairs rest

/-- `SpatialHash::get_potential_pairs` (spatial.rs lines 139-157): every
normalized position pair of every cell list, collected into a set (the
source's `HashSet` is modelled as a `Finset`, which is what makes each
pair appear exactly once). -/
def getPotentialPairs (grid : List (GridCell × List ℕ)) : Finset (ℕ × ℕ) :=
  grid.foldl (fun acc e => (listPairs e.2).foldl (fun acc2 p => insert p acc2) acc) ∅

/-- Scenario for claim C4, overlap case: insert AABB `[0,0,0]-[5,5,5]` as
object 0 and AABB `[3,3,3]-[8,8,8]` as object 1 into a fresh hash, with
arbitrary load-factor decisions `adj1`, `adj2` at the two inserts. -/
def c4OverlapState (adj1 adj2 : SizeAdj) : SpatialHash :=
  SpatialHash.insert adj2 1 ⟨3, 3, 3⟩ ⟨8, 8, 8⟩
    (SpatialHash.insert adj1 0 ⟨0, 0, 0⟩ ⟨5, 5, 5⟩ SpatialHash.new)

/-- Scenario for claim C4, far-apart case: two unit boxes 1000 units apart
on the x axis. -/
def c4FarState (adj1 adj2 : SizeAdj) : SpatialHash :=
  SpatialHash.insert adj2 1 ⟨1000, 0, 0⟩ ⟨1001, 1, 1⟩
    (SpatialHash.insert adj1 0 ⟨0, 0, 0⟩ ⟨1, 1, 1⟩ SpatialHash.new)

/-- Scenario for claim C5: insert object 0 with AABB `[0,0,0]-[1,1,1]`,
then re-insert the same object index with AABB
`[100,100,100]-[101,101,101]`.  The load factor keeps the cell size
unchanged at both inserts (with two occupied cells out of the few dozen
slots a small `HashMap` holds, the real load factor sits between `0.1875`
and `0.75`). -/
def c5State : SpatialHash :=
  SpatialHash.insert SizeAdj.keep 0 ⟨100, 100, 100⟩ ⟨101, 101, 101⟩
    (SpatialHash.insert SizeAdj.keep 0 ⟨0, 0, 0⟩ ⟨1, 1, 1⟩ SpatialHash.new)

/-! ## ECS physics bridge (src/engine/src/ecs/system/physics_bridge.rs)

`PhysicsBridgeSystem::update` reads `Transform` and `Physics` components,
pushes a particle snapshot to the GPU system, steps it, reads particle
data back and writes it into the components.  The bodies of the GPU
system's `update_particles`, `step` and `get_particle_data` are elided in
gpu_physics.rs (a placeholder comment stands where they go), so their two
fallible responses enter the model as explicit `Except` arguments; the
bridge ignores `step()`'s value entirely.  The error payload
(`PhysicsError`) only gets logged on the skip path, so it is modelled as
`Unit`. -/

/-- The `Particle` the bridge traffics in, with the fields
`PhysicsComponent::update_particle_data` fills and the write-back loop
reads (ecs/component/physics.rs lines 70-80, physics_bridge.rs lines
96-103). -/
structure ParticleB where
  position : Vec3q
  velocity : Vec3q
  acceleration : Vec3q
  mass : ℚ
  bounding_box : Vec4q
  deriving DecidableEq

/-- `TransformComponent` (ecs/component/transform.rs): the bridge writes
only `position` (via `set_position`); rotation and scale ride along. -/
structure TransformComponent where
  position : Vec3q
  rotation : Quatq
  scale : Vec3q
  deriving DecidableEq

/-- `PhysicsComponent` (ecs/component/physics.rs lines 12-29). -/
structure PhysicsComponent where
  position : Vec3q
  velocity : Vec3q
  acceleration : Vec3q
  mass : ℚ
  bounding_box : Vec4q
  enabled : Bool
  is_static : Bool
  particle_data : Option ParticleB
  deriving DecidableEq

/-- `PhysicsComponent::update_particle_data` (ecs/component/physics.rs
lines 70-80): cache a particle built from the component's current state.
The source returns `Ok(())` unconditionally, so the `Result` is dropped. -/
def PhysicsComponent.update_particle_data (p : PhysicsComponent) : PhysicsComponent :=
  { p with
      particle_data := some ⟨p.position, p.velocity, p.acceleration, p.mass, p.bounding_box⟩ }

/-- One entity as the bridge's `query_mut` iteration yields it: the stable
entity index plus its two components. -/
structure BridgeEntity where
  index : ℕ
  transform : TransformComponent
  physics : PhysicsComponent
  deriving DecidableEq

/-- One iteration of the collection loop (physics_bridge.rs lines 59-74):
an enabled component contributes its cached particle, building the cache
first if absent (`update_particle_data().ok()` and re-read); a disabled
one contributes nothing and is untouched. -/
def collectEntity (e : BridgeEntity) : BridgeEntity × List ParticleB :=
  if e.physics.enabled then
    match e.physics.particle_data with
    | some pd => (e, [pd])
    | none =>
        let ph := e.physics.update_particle_data
        match ph.particle_data with
        | some pd => ({ e with physics := ph }, [pd])
        | none => ({ e with physics := ph }, [])
  else (e, [])

/-- The whole collection loop, in iteration order: the possibly
cache-updated entities plus the particle snapshot. -/
def collectParticles : List BridgeEntity → List BridgeEntity × List ParticleB
  | [] => ([], [])
  | e :: rest =>
      let head := collectEntity e
      let tail := collectParticles rest
      (head.1 :: tail.1, head.2 ++ tail.2)

/-- The write-back loop (physics_bridge.rs lines 92-106): for every
enabled component whose entity index lands inside the returned particle
list (`self.particles.get(entity.index())`), overwrite the transform
position and the physics position/velocity/acceleration. -/
def writeBack (particles : List ParticleB) (entities : List BridgeEntity) :
    List BridgeEntity :=
  entities.map fun e =>
    if e.physics.enabled then
      match particles.get? e.index with
      | some particle =>
          { e with
              transform := { e.transform with position := particle.position }
              physics :=
                { e.physics with
                    position := particle.position
                    velocity := particle.velocity
                    acceleration := particle.acceleration } }
      | none => e
    else e

/-- `PhysicsBridgeSystem::update` (physics_bridge.rs lines 54-109):
collect the snapshot; if `update_particles` errors, log and return; step;
if `get_particle_data` errors, log and return (the `?` fires before
`self.particles` is reassigned); otherwise replace `self.particles` with
the returned data and write it back.  Returns the entity list and the
bridge's `particles` buffer after the frame (`frame_count` is a wrapping
counter with no bearing on any claim and is left out). -/
def bridgeUpdate (updRes : Except Unit Unit) (getRes : Except Unit (List ParticleB))
    (world : List BridgeEntity) : List BridgeEntity × List ParticleB :=
  let collected := collectParticles world
  match updRes with
  | Except.error _ => collected
  | Except.ok _ =>
      match getRes with
      | Except.error _ => collected
      | Except.ok newParticles => (writeBack newParticles collected.1, newParticles)

/-- The fields claim C6 is about: the entity's index, its transform
position, and its physics position/velocity/acceleration. -/
def entitySnapshot (e : BridgeEntity) : ℕ × Vec3q × Vec3q × Vec3q × Vec3q :=
  (e.index, e.transform.position, e.physics.position, e.physics.velocity,
    e.physics.acceleration)

/-- A concrete entity for the claim C6 witness: enabled, no cached
particle yet. -/
def c6Entity : BridgeEntity :=
  { index := 0
    transform := { position := ⟨0, 0, 0⟩, rotation := ⟨0, 0, 0, 1⟩, scale := ⟨1, 1, 1⟩ }
    physics :=
      { position := ⟨1, 2, 3⟩
        velocity := ⟨4, 5, 6⟩
        acceleration := ⟨0, 0, 0⟩
        mass := 1
        bounding_box := ⟨0, 0, 0, 1⟩
        enabled := true
        is_static := false
        particle_data := none } }

/-! ## Collision detection (src/engine/src/physics/collision.rs)

The local `Mat3` in collision.rs implements `from_quat`, `transpose`,
`row`, `col` and `abs`, and `intersects` then uses `ra.transpose() * rb`
and `ra.transpose() * rel_center` — operator impls the struct does not
define, so collision.rs does not compile as written.  The embedding gives
`*` the standard matrix-matrix and matrix-vector meaning the algorithm
(Gottschalk's OBB test) intends. -/

/-- The `i`-th component of a vector (`Vec3` indexing `v[i]`). -/
def Vec3q.comp (v : Vec3q) : Fin 3 → ℚ
  | 0 => v.x
  | 1 => v.y
  | 2 => v.z

/-- `Vec3::abs`. -/
def Vec3q.abs (v : Vec3q) : Vec3q := ⟨|v.x|, |v.y|, |v.z|⟩

/-- The column-major `Mat3` from collision.rs lines 67-70. -/
structure Mat3q where
  c0 : Vec3q
  c1 : Vec3q
  c2 : Vec3q

/-- `Mat3::from_quat` (collision.rs lines 73-94). -/
def Mat3q.fromQuat (q : Quatq) : Mat3q :=
  let x2 := q.x * 2
  let y2 := q.y * 2
  let z2 := q.z * 2
  let xx := q.x * x2
  let xy := q.x * y2
  let xz := q.x * z2
  let yy := q.y * y2
  let yz := q.y * z2
  let zz := q.z * z2
  let wx := q.w * x2
  let wy := q.w * y2
  let wz := q.w * z2
  { c0 := ⟨1 - (yy + zz), xy + wz, xz - wy⟩
    c1 := ⟨xy - wz, 1 - (xx + zz), yz + wx⟩
    c2 := ⟨xz + wy, yz - wx, 1 - (xx + yy)⟩ }

/-- `Mat3::transpose` (collision.rs lines 96-104). -/
def Mat3q.transpose (m : Mat3q) : Mat3q :=
  { c0 := ⟨m.c0.x, m.c1.x, m.c2.x⟩
    c1 := ⟨m.c0.y, m.c1.y, m.c2.y⟩
    c2 := ⟨m.c0.z, m.c1.z, m.c2.z⟩ }

/-- `Mat3::row` (collision.rs lines 106-108). -/
def Mat3q.row (m : Mat3q) (i : Fin 3) : Vec3q := ⟨m.c0.comp i, m.c1.comp i, m.c2.comp i⟩

/-- `Mat3::col` (collision.rs lines 110-112). -/
def Mat3q.col (m : Mat3q) : Fin 3 → Vec3q
  | 0 => m.c0
  | 1 => m.c1
  | 2 => m.c2

/-- `Mat3::abs` (collision.rs lines 114-118). -/
def Mat3q.absM (m : Mat3q) : Mat3q := ⟨m.c0.abs, m.c1.abs, m.c2.abs⟩

/-- Matrix-vector product (the `*` `intersects` uses but the source never
defines — see the section comment). -/
def Mat3q.mulVec (m : Mat3q) (v : Vec3q) : Vec3q := m.c0 * v.x + m.c1 * v.y + m.c2 * v.z

/-- Matrix-matrix product, columnwise (same remark). -/
def Mat3q.mulMat (a b : Mat3q) : Mat3q := ⟨a.mulVec b.c0, a.mulVec b.c1, a.mulVec b.c2⟩

/-- `CollisionManifold` from collision.rs lines 5-10. -/
structure CollisionManifold where
  normal : Vec3q
  penetration : ℚ
  contact_points : List Vec3q
  deriving DecidableEq

/-- `BoundingVolume` from collision.rs lines 12-17. -/
structure BoundingVolume where
  center : Vec3q
  half_extents : Vec3q
  orientation : Quatq

/-- `BoundingVolume::from_aabb` (collision.rs lines 20-26): the box is a
cube of half-size `size.w` centered at `position`. -/
def BoundingVolume.from_aabb (position : Vec3q) (size : Vec4q) (orientation : Quatq) :
    BoundingVolume :=
  { center := position, half_extents := Vec3q.splat size.w, orientation := orientation }

/-- `BoundingVolume::intersects` (collision.rs lines 28-64): the 6-axis
face-normal separating-axis test.  Each early `return false` on
`|t| > ra + rb` becomes an `all` over the three axes of each loop.  (The
source also computes an unused `rel_orientation`, omitted.) -/
def BoundingVolume.intersects (a b : BoundingVolume) : Bool :=
  let rel_center := b.center - a.center
  let ra := Mat3q.fromQuat a.orientation
  let rb := Mat3q.fromQuat b.orientation
  let r := ra.transpose.mulMat rb
  let abs_r := r.absM
  let t := ra.transpose.mulVec rel_center
  (([0, 1, 2] : List (Fin 3)).all fun i =>
      decide (|t.comp i| ≤ a.half_extents.comp i + b.half_extents.dot (abs_r.row i))) &&
    (([0, 1, 2] : List (Fin 3)).all fun i =>
      decide (|t.dot (r.col i)| ≤ a.half_extents.dot (abs_r.col i) + b.half_extents.comp i))

/-- `generate_box_corners` (collision.rs lines 384-401), in source corner
order. -/
def generateBoxCorners (pos : Vec3q) (half_size : ℚ) (ori : Quatq) : List Vec3q :=
  ([⟨1, 1, 1⟩, ⟨-1, 1, 1⟩, ⟨1, -1, 1⟩, ⟨1, 1, -1⟩,
    ⟨-1, -1, 1⟩, ⟨-1, 1, -1⟩, ⟨1, -1, -1⟩, ⟨-1, -1, -1⟩] : List Vec3q).map
    fun corner => pos + ori.mulVec3 (corner * half_size)

/-- `project_box` (collision.rs lines 370-382): min and max of the eight
corner projections.  The `f32::INFINITY` / `NEG_INFINITY` seeds only
matter for an empty corner list; with the eight corners always present,
seeding with the first projection and folding over all of them computes
the same pair. -/
def projectBox (pos : Vec3q) (half_size : ℚ) (ori : Quatq) (axis : Vec3q) : ℚ × ℚ :=
  let ps := (generateBoxCorners pos half_size ori).map fun corner => corner.dot axis
  (ps.foldl min (ps.headD 0), ps.foldl max (ps.headD 0))

/-- `point_in_box` (collision.rs lines 403-408). -/
def pointInBox (point box_pos : Vec3q) (half_size : ℚ) (box_ori : Quatq) : Bool :=
  let local_point := box_ori.conjugate.mulVec3 (point - box_pos)
  decide (|local_point.x| ≤ half_size) && decide (|local_point.y| ≤ half_size) &&
    decide (|local_point.z| ≤ half_size)

/-- `point_box_distance` (collision.rs lines 410-427). -/
def pointBoxDistance (sq : ℚ → ℚ) (point box_pos : Vec3q) (half_size : ℚ) (box_ori : Quatq) :
    Option (ℚ × Vec3q) :=
  let local_point := box_ori.conjugate.mulVec3 (point - box_pos)
  let closest := local_point.clamp (Vec3q.splat (-half_size)) (Vec3q.splat half_size)
  if local_point = closest then none
  else
    some (Vec3q.length sq (local_point - closest),
      box_ori.mulVec3 (Vec3q.normalize sq (local_point - closest)))

/-- The barycentric denominator of `point_in_tetrahedron` (collision.rs
lines 447-450), factored out so theorems can name it; the `d` products are
exactly the source's. -/
def tetDenom (t0 t1 t2 t3 : Vec3q) : ℚ :=
  let v0 := t1 - t0
  let v1 := t2 - t0
  let v2 := t3 - t0
  let d00 := v0.dot v0
  let d01 := v0.dot v1
  let d02 := v0.dot v2
  let d11 := v1.dot v1
  let d12 := v1.dot v2
  let d22 := v2.dot v2
  d00 * d11 * d22 + 2 * d01 * d12 * d02 - d02 * d11 * d02 - d01 * d01 * d22 - d00 * d12 * d12

/-- `point_in_tetrahedron` (collision.rs lines 429-480), the four
tetrahedron vertices passed positionally.  A zero denominator and negative
or overflowing barycentric coordinates return `None`; otherwise the
penetration magnitude and the (doubly) normalized, negated face normal. -/
def pointInTetrahedron (sq : ℚ → ℚ) (point t0 t1 t2 t3 : Vec3q) : Option (ℚ × Vec3q) :=
  let v0 := t1 - t0
  let v1 := t2 - t0
  let v2 := t3 - t0
  let v3 := point - t0
  let d00 := v0.dot v0
  let d01 := v0.dot v1
  let d02 := v0.dot v2
  let d11 := v1.dot v1
  let d12 := v1.dot v2
  let d22 := v2.dot v2
  let d30 := v3.dot v0
  let d31 := v3.dot v1
  let d32 := v3.dot v2
  let denom := tetDenom t0 t1 t2 t3
  if denom = 0 then none
  else
    let inv_denom := 1 / denom
    let u := (d11 * d22 * d30 + d02 * d12 * d31 + d01 * d32 * d12 - d02 * d11 * d32 -
      d01 * d31 * d22 - d12 * d12 * d30) * inv_denom
    let v := (d00 * d22 * d31 + d02 * d32 * d01 + d02 * d30 * d12 - d02 * d02 * d31 -
      d00 * d32 * d12 - d02 * d30 * d01) * inv_denom
    let w := (d00 * d11 * d32 + d01 * d31 * d02 + d01 * d30 * d12 - d02 * d11 * d30 -
      d00 * d31 * d12 - d01 * d01 * d32) * inv_denom
    if u < 0 ∨ v < 0 ∨ w < 0 ∨ u + v + w > 1 then none
    else
      let normal := Vec3q.normalize sq (v1.cross v2)
      let penetration := point.dot normal - t0.dot normal
      some (|penetration|, -(Vec3q.normalize sq normal))

/-- A tetrahedron as four vertex indices (`[usize; 4]`). -/
abbrev Tet4 := ℕ × ℕ × ℕ × ℕ

/-- The four vertex positions of a tetrahedron (`positions[tet[i]]`; an
out-of-range index panics in Rust and is padded with the origin here —
the spec's data-model invariant keeps indices in range). -/
def tetPoints (positions : List Vec3q) (tet : Tet4) : Vec3q × Vec3q × Vec3q × Vec3q :=
  (positions.getD tet.1 0, positions.getD tet.2.1 0, positions.getD tet.2.2.1 0,
    positions.getD tet.2.2.2 0)

/-- The accumulation running through all three narrow-phase detectors:
contact points in push order, summed normal, running max penetration. -/
abbrev ContactAccum := List Vec3q × Vec3q × ℚ

/-- The vertex-versus-tetrahedra double loop shared by
`detect_soft_soft_collision` (both directions, collision.rs lines 281-305)
and phase 2 of `detect_rigid_soft_collision` (lines 341-357): each hit
pushes the vertex, adds the normal, maxes the penetration. -/
def vertsVsTets (sq : ℚ → ℚ) (verts tetVerts : List Vec3q) (tets : List Tet4)
    (st : ContactAccum) : ContactAccum :=
  verts.foldl
    (fun st1 p =>
      tets.foldl
        (fun st2 tet =>
          let tp := tetPoints tetVerts tet
          match pointInTetrahedron sq p tp.1 tp.2.1 tp.2.2.1 tp.2.2.2 with
          | some pr => (st2.1 ++ [p], st2.2.1 + pr.2, max st2.2.2 pr.1)
          | none => st2)
        st1)
    st

/-- `detect_soft_soft_collision` (collision.rs lines 269-316).  The two
bounding-box arguments are taken but unused, as in the source. -/
def detectSoftSoft (sq : ℚ → ℚ) (p1s : List Vec3q) (t1s : List Tet4) (_bb1 : Vec4q)
    (p2s : List Vec3q) (t2s : List Tet4) (_bb2 : Vec4q) : Option CollisionManifold :=
  let st := vertsVsTets sq p1s p2s t2s ([], 0, 0)
  let st := vertsVsTets sq p2s p1s t1s st
  if st.1.isEmpty then none
  else some ⟨Vec3q.normalize sq st.2.1, st.2.2, st.1⟩

/-- `detect_rigid_soft_collision` (collision.rs lines 318-368): soft
vertices against the rigid box (clamped-point distance), then rigid box
corners against the soft tetrahedra. -/
def detectRigidSoft (sq : ℚ → ℚ) (rigid_pos : Vec3q) (rigid_ori : Quatq) (rigid_bb : Vec4q)
    (soft_positions : List Vec3q) (soft_tetrahedra : List Tet4) : Option CollisionManifold :=
  let st :=
    soft_positions.foldl
      (fun st1 pos =>
        match pointBoxDistance sq pos rigid_pos rigid_bb.w rigid_ori with
        | some pr => (st1.1 ++ [pos], st1.2.1 + pr.2, max st1.2.2 pr.1)
        | none => st1)
      (([], 0, 0) : ContactAccum)
  let corners := generateBoxCorners rigid_pos rigid_bb.w rigid_ori
  let st := vertsVsTets sq corners soft_positions soft_tetrahedra st
  if st.1.isEmpty then none
  else some ⟨Vec3q.normalize sq st.2.1, st.2.2, st.1⟩

/-- The separating-axis loop of `detect_rigid_rigid_collision`
(collision.rs lines 224-239): `none` is the early `return None` on a
separating axis; the accumulator's `Option ℚ` is the running
`min_penetration`, whose `f32::INFINITY` start (always beaten by the first
axis) is `none`. -/
def satLoop (sq : ℚ → ℚ) (p1 : Vec3q) (half1 : ℚ) (o1 : Quatq) (p2 : Vec3q) (half2 : ℚ)
    (o2 : Quatq) : List Vec3q → Option ℚ × Vec3q → Option (Option ℚ × Vec3q)
  | [], acc => some acc
  | ax :: rest, acc =>
      let axis := Vec3q.normalize sq ax
      let p1_proj := projectBox p1 half1 o1 axis
      let p2_proj := projectBox p2 half2 o2 axis
      let dist := p2_proj.1 - p1_proj.2
      if 0 < dist then none
      else
        let penetration := -dist
        let acc :=
          match acc.1 with
          | none => (some penetration, axis)
          | some m => if penetration < m then (some penetration, axis) else acc
        satLoop sq p1 half1 o1 p2 half2 o2 rest acc

/-- `detect_rigid_rigid_collision` (collision.rs lines 192-267): bounding
test, separating-axis scan over both boxes' frame axes, then contact
points as each box's corners inside the other.  (`rel_pos` at line 208 is
computed but never used; omitted.)  The `min_penetration` is always set by
the first axis, so the `getD 0` default is never taken. -/
def detectRigidRigid (sq : ℚ → ℚ) (p1 : Vec3q) (o1 : Quatq) (bb1 : Vec4q) (p2 : Vec3q)
    (o2 : Quatq) (bb2 : Vec4q) : Option CollisionManifold :=
  let bv1 := BoundingVolume.from_aabb p1 bb1 o1
  let bv2 := BoundingVolume.from_aabb p2 bb2 o2
  if ¬bv1.intersects bv2 then none
  else
    let r1 := Mat3q.fromQuat o1
    let r2 := Mat3q.fromQuat o2
    let axes := [r1.col 0, r1.col 1, r1.col 2, r2.col 0, r2.col 1, r2.col 2]
    match satLoop sq p1 bb1.w o1 p2 bb2.w o2 axes (none, 0) with
    | none => none
    | some result =>
        let contact_points :=
          (generateBoxCorners p1 bb1.w o1).filter (fun corner => pointInBox corner p2 bb2.w o2)
            ++ (generateBoxCorners p2 bb2.w o2).filter
              (fun corner => pointInBox corner p1 bb1.w o1)
        if contact_points.isEmpty then none
        else some ⟨result.2, result.1.getD 0, contact_points⟩

/-- `PhysicsObject` from physics.rs lines 12-34. -/
inductive PhysicsObjectQ where
  | rigidBody (position velocity acceleration : Vec3q) (orientation : Quatq)
      (angular_velocity angular_acceleration : Vec3q) (mass : ℚ) (inertia_tensor : Vec3q)
      (bounding_box : Vec4q)
  | deformableBody (positions prev_positions velocities : List Vec3q) (masses : List ℚ)
      (rest_volume : ℚ) (volumes : List ℚ) (tetrahedra : List Tet4) (bounding_box : Vec4q)
  deriving DecidableEq

/-- `detect_collision` (collision.rs lines 121-190): dispatch on the two
variants; the deformable-first mixed case reuses
`detect_rigid_soft_collision` and negates the returned normal. -/
def detectCollision (sq : ℚ → ℚ) : PhysicsObjectQ → PhysicsObjectQ → Option CollisionManifold
  | PhysicsObjectQ.rigidBody p1 _ _ o1 _ _ _ _ bb1,
    PhysicsObjectQ.rigidBody p2 _ _ o2 _ _ _ _ bb2 => detectRigidRigid sq p1 o1 bb1 p2 o2 bb2
  | PhysicsObjectQ.deformableBody p1s _ _ _ _ _ t1s bb1,
    PhysicsObjectQ.deformableBody p2s _ _ _ _ _ t2s bb2 =>
      detectSoftSoft sq p1s t1s bb1 p2s t2s bb2
  | PhysicsObjectQ.rigidBody position _ _ orientation _ _ _ _ bounding_box,
    PhysicsObjectQ.deformableBody positions _ _ _ _ _ tetrahedra _ =>
      detectRigidSoft sq position orientation bounding_box positions tetrahedra
  | PhysicsObjectQ.deformableBody positions _ _ _ _ _ tetrahedra _,
    PhysicsObjectQ.rigidBody position _ _ orientation _ _ _ _ bounding_box =>
      (detectRigidSoft sq position orientation bounding_box positions tetrahedra).map
        fun manifold => { manifold with normal := -manifold.normal }

/-! ## Distance constraint (src/engine/src/physics/constraints.rs) -/

/-- `DistanceConstraint` from constraints.rs lines 13-17. -/
structure DistanceConstraint where
  object1_index : ℕ
  object2_index : ℕ
  rest_distance : ℚ
  deriving DecidableEq

/-- Write a new position into a rigid body at `index` (the
`if let RigidBody { position, .. }` mutation arms of `project`). -/
def setRigidPosition (objects : List PhysicsObjectQ) (index : ℕ) (newPos : Vec3q) :
    List PhysicsObjectQ :=
  match objects.get? index with
  | some (PhysicsObjectQ.rigidBody _ v a o av aa m it bb) =>
      objects.set index (PhysicsObjectQ.rigidBody newPos v a o av aa m it bb)
  | _ => objects

/-- `DistanceConstraint::project` (constraints.rs lines 40-84), on the
object list (`Vec<RefCell<PhysicsObject>>` without the cells).  `none`
models a panic: indexing past the list, or the double `borrow_mut` the
mutation arm takes when both indices coincide.  Zero distance and zero
total mass return early with the list untouched; a non-rigid pair is the
`_ => ()` no-op arm. -/
def DistanceConstraint.project (sq : ℚ → ℚ) (c : DistanceConstraint)
    (objects : List PhysicsObjectQ) : Option (List PhysicsObjectQ) :=
  match objects.get? c.object1_index, objects.get? c.object2_index with
  | some (PhysicsObjectQ.rigidBody p1 _ _ _ _ _ m1 _ _),
    some (PhysicsObjectQ.rigidBody p2 _ _ _ _ _ m2 _ _) =>
      let delta := p2 - p1
      let distance := Vec3q.length sq delta
      if distance = 0 then some objects
      else
        let correction := delta * ((distance - c.rest_distance) / distance)
        let total_mass := m1 + m2
        if total_mass = 0 then some objects
        else if c.object1_index = c.object2_index then none
        else
          some (setRigidPosition
            (setRigidPosition objects c.object1_index (p1 + correction * (m2 / total_mass)))
            c.object2_index (p2 - correction * (m1 / total_mass)))
  | some _, some _ => some objects
  | _, _ => none

/-- The square root model used by concrete witnesses: everything maps to
0 (which is all `sqrt` needs to satisfy at the verified inputs:
`sqrt 0 = 0`). -/
def sqZero : ℚ → ℚ := fun _ => 0

/-- Concrete objects for the claim C8 witness, zero-distance case: two
rigid bodies at the same position. -/
def c8Objects1 : List PhysicsObjectQ :=
  [PhysicsObjectQ.rigidBody ⟨1, 1, 1⟩ 0 0 ⟨0, 0, 0, 1⟩ 0 0 1 0 ⟨0, 0, 0, 1⟩,
    PhysicsObjectQ.rigidBody ⟨1, 1, 1⟩ 0 0 ⟨0, 0, 0, 1⟩ 0 0 1 0 ⟨0, 0, 0, 1⟩]

/-- Concrete objects for the claim C8 witness, zero-total-mass case: two
massless rigid bodies at distinct positions. -/
def c8Objects2 : List PhysicsObjectQ :=
  [PhysicsObjectQ.rigidBody ⟨0, 0, 0⟩ 0 0 ⟨0, 0, 0, 1⟩ 0 0 0 0 ⟨0, 0, 0, 1⟩,
    PhysicsObjectQ.rigidBody ⟨3, 0, 0⟩ 0 0 ⟨0, 0, 0, 1⟩ 0 0 0 0 ⟨0, 0, 0, 1⟩]

/-! ## GPU double buffering (src/engine/src/physics/gpu_physics.rs)

`GpuPhysicsSystem` declares `current_frame: usize` and the
`ParticleBufferPair` (front/back halves), but the bodies of
`update_particles`, `step` and `get_particle_data` are elided from
gpu_physics.rs (the comment `// ... [Previous implementations with updated
error handling] ...` stands in their place), so the buffer protocol is
modelled from the spec (§4.3, §5, §8). -/

/-- The three buffer-touching calls of the GPU system's per-frame
protocol. -/
inductive GpuOp where
  | updateParticles
  | step
  | getParticleData
  deriving DecidableEq

/-- Modelled from the spec: the double-buffer state of
`GpuPhysicsSystem`, whose method bodies are missing from
gpu_physics.rs.  `active` is the buffer half the next dispatch targets
(the parity of the struct's `current_frame` counter); `in_flight` is the
half bound to the submitted-but-not-fence-waited dispatch, if any
(`none` right after `initialize`). -/
structure GpuBufState where
  active : Bool
  in_flight : Option Bool
  deriving DecidableEq

/-- Modelled from the spec: the state after `initialize()` — no dispatch
in flight, frame counter zero. -/
def gpuInit : GpuBufState := { active := false, in_flight := none }

/-- Modelled from the spec (§4.3): `update_particles` writes the
currently-inactive half through its mapped pointer and does not block —
the binding state does not change; `step` flips the active half and
submits the dispatch against it (the freshly written input — "the Bridge
always writes the side not currently read by the GPU"; the single
command buffer and fence force any previous dispatch to have completed
by resubmission); `get_particle_data` waits on the fence, ending the
in-flight dispatch, and reads back the half the GPU just wrote. -/
def gpuApply (s : GpuBufState) : GpuOp → GpuBufState
  | GpuOp.updateParticles => s
  | GpuOp.step => { active := !s.active, in_flight := some (!s.active) }
  | GpuOp.getParticleData => { s with in_flight := none }

/-- Modelled from the spec: the half `update_particles` writes — the
currently-inactive one. -/
def cpuWriteHalf (s : GpuBufState) : Bool := !s.active

/-- The write is safe when the half the CPU writes is not the half bound
to an in-flight dispatch. -/
def updWriteSafe (s : GpuBufState) : Bool :=
  match s.in_flight with
  | none => true
  | some h => h != cpuWriteHalf s

/-- Every `update_particles` along the call sequence writes a half not
bound to the in-flight dispatch. -/
def traceSafe : GpuBufState → List GpuOp → Bool
  | _, [] => true
  | s, op :: rest =>
      (match op with
        | GpuOp.updateParticles => updWriteSafe s
        | _ => true) &&
        traceSafe (gpuApply s op) rest

/-! ## Theorems about the memory pool -/

theorem offsetsZero_getD {l : List MemoryBlock} (h : ∀ b ∈ l, b.offset = 0) (i : ℕ) :
    (l.getD i default).offset = 0 := by
  induction l generalizing i with
  | nil => cases i <;> rfl
  | cons a t ih =>
    cases i with
    | zero => exact h a (by simp)
    | succ j => simpa using ih (fun b hb => h b (by simp [hb])) j

theorem offsetsZero_set {l : List MemoryBlock} (h : ∀ b ∈ l, b.offset = 0) (i : ℕ)
    (nb : MemoryBlock) (hnb : nb.offset = 0) : ∀ b ∈ l.set i nb, b.offset = 0 := by
  intro b hb
  rcases List.mem_or_eq_of_mem_set hb with hmem | rfl
  · exact h b hmem
  · exact hnb

theorem offsetsZero_eraseIdx {l : List MemoryBlock} (h : ∀ b ∈ l, b.offset = 0) (i : ℕ) :
    ∀ b ∈ l.eraseIdx i, b.offset = 0 := by
  intro b hb
  exact h b (List.mem_of_mem_eraseIdx hb)

theorem offsetsZero_coalesceAux (fuel : ℕ) :
    ∀ (blocks : List MemoryBlock) (fb : List ℕ) (i : ℕ),
      (∀ b ∈ blocks, b.offset = 0) →
      ∀ b ∈ (MemoryPool.coalesceAux fuel blocks fb i).1, b.offset = 0 := by
  induction fuel with
  | zero => intro blocks fb i h; simpa [MemoryPool.coalesceAux] using h
  | succ f ih =>
    intro blocks fb i h
    by_cases hlt : i + 1 < blocks.length
    · by_cases hfree :
        ((blocks.getD i default).is_free && (blocks.getD (i + 1) default).is_free) = true
      · simp only [MemoryPool.coalesceAux, if_pos hlt, hfree, if_true]
        exact ih _ _ _
          (offsetsZero_set (offsetsZero_eraseIdx h (i + 1)) i _ (offsetsZero_getD h i))
      · simp only [MemoryPool.coalesceAux, if_pos hlt, hfree, if_false]
        exact ih _ _ _ h
    · simp only [MemoryPool.coalesceAux, if_neg hlt]
      exact h

theorem allOffsetsZero_allocate {p : MemoryPool} (h : p.allOffsetsZero) (size alignment : ℕ) :
    (p.allocate size alignment).1.allOffsetsZero ∧ (p.allocate size alignment).2.2 = 0 := by
  unfold MemoryPool.allocate
  cases hf : p.find_free_block size alignment with
  | none =>
      refine ⟨fun b hb => ?_, rfl⟩
      rcases List.mem_append.mp hb with hmem | hmem
      · exact h b hmem
      · simp at hmem
        subst hmem
        rfl
  | some idx =>
      exact ⟨offsetsZero_set h idx _ (offsetsZero_getD h idx), offsetsZero_getD h idx⟩

theorem allOffsetsZero_free {p : MemoryPool} (h : p.allOffsetsZero) (memory offset : ℕ) :
    (p.free memory offset).allOffsetsZero := by
  unfold MemoryPool.free
  cases hf : p.blocks.findIdx? (fun block => block.memory = memory && block.offset = offset) with
  | none => exact h
  | some idx =>
      intro b hb
      exact offsetsZero_coalesceAux _ _ _ _
        (offsetsZero_set h idx { p.blocks.getD idx default with is_free := true }
          (offsetsZero_getD h idx)) b hb

theorem runOps_offsets_zero (ops : List PoolOp) :
    ∀ p : MemoryPool, p.allOffsetsZero → ∀ out ∈ (p.runOps ops).2, out.2 = 0 := by
  induction ops with
  | nil => intro p _ out hout; simp [MemoryPool.runOps] at hout
  | cons op rest ih =>
    intro p hp out hout
    cases op with
    | alloc size alignment =>
        simp only [MemoryPool.runOps, List.mem_cons] at hout
        rcases hout with rfl | hout
        · exact (allOffsetsZero_allocate hp size alignment).2
        · exact ih _ (allOffsetsZero_allocate hp size alignment).1 out hout
    | free memory offset =>
        simp only [MemoryPool.runOps] at hout
        exact ih _ (allOffsetsZero_free hp memory offset) out hout

/-- Claim C1: memory-pool conservation fails in the code.  After
`allocate(64, 1)` on a fresh 1MB pool and `free` of the returned region,
`get_stats` still reports `used_size = 64` and `free_size = total - 64`,
although every block of the pool is free again (no bytes are allocated):
`MemoryPool::free` never decreases `used_size`, so `get_stats` over-reports
`used_size` and under-reports `free_size`. -/
theorem c1_get_stats_overreports_used_after_free :
    c1PoolAfterFree.get_stats.used_size = 64 ∧
    c1PoolAfterFree.blocks.all (fun b => b.is_free) = true ∧
    c1PoolAfterFree.get_stats.free_size + 64 = c1PoolAfterFree.get_stats.total_size ∧
    (c1PoolAfterFree.blocks.map (fun b => b.size)).sum =
      c1PoolAfterFree.get_stats.total_size := by
  decide

/-- Claim C2: freeing the two adjacent regions `(offset 0, size 64)` and
`(offset 64, size 64)` of `c2StartPool` in either order coalesces them:
the resulting pool holds exactly one region `(offset 0, size 128)`, free,
and the free list holds exactly that region's index. -/
theorem c2_coalesce_adjacent_free_regions :
    ((c2StartPool.free 7 0).free 7 64).blocks = [⟨7, 128, 0, true⟩] ∧
    ((c2StartPool.free 7 0).free 7 64).free_blocks = [0] ∧
    ((c2StartPool.free 7 64).free 7 0).blocks = [⟨7, 128, 0, true⟩] ∧
    ((c2StartPool.free 7 64).free 7 0).free_blocks = [0] := by
  decide

/-- Claim C10: starting from a freshly constructed pool, every successful
`MemoryPool::allocate` call in any sequence of allocate/free operations
returns offset 0 (fresh blocks are created at offset 0, a reused free block
is handed out whole at its stored offset, and coalescing never moves a
surviving block). -/
theorem c10_allocate_returns_offset_zero (initial_size : ℕ) (ops : List PoolOp) :
    ∀ out ∈ ((MemoryPool.new initial_size).runOps ops).2, out.2 = 0 := by
  intro out hout
  exact runOps_offsets_zero ops _ (fun b hb => by simp [MemoryPool.new] at hb) out hout

/-- Witness for claim C10's theorem at a concrete input: the single
allocation `allocate(64, 1)` on a fresh pool returns `(memory 0, offset
0)`, and the theorem applies to it. -/
theorem c10_allocate_returns_offset_zero_witness : ((0 : ℕ), (0 : ℕ)).2 = 0 :=
  c10_allocate_returns_offset_zero 1024 [PoolOp.alloc 64 1] (0, 0) (by decide)

/-! ## Theorems about island partitioning -/

/-- Claim C3: island merging does not happen in the code.  For the world
with two objects joined by a `DistanceConstraint` between objects 0 and 1,
`build_islands` still returns two singleton islands carrying no
constraints — `get_connected_objects` is a placeholder returning the empty
list, so no constraint ever connects anything.  (With zero constraints the
N-singleton half of the claim does hold, for the same reason.) -/
theorem c3_build_islands_ignores_constraints :
    buildIslands c3World = [⟨[0], []⟩, ⟨[1], []⟩] ∧
    (buildIslands c3World).all (fun island => island.objects.length == 1) = true := by
  decide

/-! ## Theorems about the spatial hash -/

attribute [local semireducible] Rat.add Rat.sub Rat.mul Rat.inv

theorem normPair_cases (a b : ℕ) : normPair a b = (a, b) ∨ normPair a b = (b, a) := by
  unfold normPair
  split_ifs <;> simp

theorem normPair_comm (a b : ℕ) : normPair a b = normPair b a := by
  unfold normPair
  split_ifs with h1 h2 h2
  · exfalso
    omega
  · rfl
  · rfl
  · have hab : a = b := by omega
    subst hab
    rfl

theorem normPair_eq {a b c d : ℕ} (h : normPair a b = normPair c d) :
    (a = c ∧ b = d) ∨ (a = d ∧ b = c) := by
  rcases normPair_cases a b with h1 | h1 <;> rcases normPair_cases c d with h2 | h2 <;>
    rw [h1, h2] at h <;> simp [Prod.ext_iff] at h <;> tauto

theorem mem_listPairs {a b : ℕ} (hab : a ≠ b) (l : List ℕ) :
    normPair a b ∈ listPairs l ↔ a ∈ l ∧ b ∈ l := by
  induction l with
  | nil => simp [listPairs]
  | cons c rest ih =>
    simp only [listPairs, List.mem_append, List.mem_map, List.mem_cons]
    constructor
    · rintro (⟨d, hd, hval⟩ | h)
      · rcases normPair_eq hval with ⟨rfl, rfl⟩ | ⟨rfl, rfl⟩
        · exact ⟨Or.inl rfl, Or.inr hd⟩
        · exact ⟨Or.inr hd, Or.inl rfl⟩
      · rcases ih.mp h with ⟨ha, hb⟩
        exact ⟨Or.inr ha, Or.inr hb⟩
    · rintro ⟨rfl | ha, rfl | hb⟩
      · exact absurd rfl hab
      · exact Or.inl ⟨b, hb, rfl⟩
      · exact Or.inl ⟨a, ha, (normPair_comm a b).symm⟩
      · exact Or.inr (ih.mpr ⟨ha, hb⟩)

theorem mem_foldl_insert (l : List (ℕ × ℕ)) (init : Finset (ℕ × ℕ)) (p : ℕ × ℕ) :
    p ∈ l.foldl (fun acc q => insert q acc) init ↔ p ∈ init ∨ p ∈ l := by
  induction l generalizing init with
  | nil => simp
  | cons q rest ih =>
    simp only [List.foldl_cons, ih, Finset.mem_insert, List.mem_cons]
    tauto

theorem mem_pairs_aux (grid : List (GridCell × List ℕ)) (init : Finset (ℕ × ℕ)) (p : ℕ × ℕ) :
    p ∈ grid.foldl (fun acc e => (listPairs e.2).foldl (fun acc2 q => insert q acc2) acc) init ↔
      p ∈ init ∨ ∃ e ∈ grid, p ∈ listPairs e.2 := by
  induction grid generalizing init with
  | nil => simp
  | cons e rest ih =>
    simp only [List.foldl_cons, ih, mem_foldl_insert, List.mem_cons]
    constructor
    · rintro ((h | h) | ⟨f, hf, hp⟩)
      · exact Or.inl h
      · exact Or.inr ⟨e, Or.inl rfl, h⟩
      · exact Or.inr ⟨f, Or.inr hf, hp⟩
    · rintro (h | ⟨f, rfl | hf, hp⟩)
      · exact Or.inl (Or.inl h)
      · exact Or.inl (Or.inr hp)
      · exact Or.inr ⟨f, hf, hp⟩

theorem mem_getPotentialPairs (grid : List (GridCell × List ℕ)) (a b : ℕ) (hab : a ≠ b) :
    normPair a b ∈ getPotentialPairs grid ↔ ∃ e ∈ grid, a ∈ e.2 ∧ b ∈ e.2 := by
  unfold getPotentialPairs
  rw [mem_pairs_aux]
  simp only [Finset.not_mem_empty, false_or]
  constructor
  · rintro ⟨e, he, hp⟩
    exact ⟨e, he, (mem_listPairs hab e.2).mp hp⟩
  · rintro ⟨e, he, hp⟩
    exact ⟨e, he, (mem_listPairs hab e.2).mpr hp⟩

/-- Claim C4: broad-phase pair soundness and deduplication.  First: for
every load-factor decision pair, the two overlapping example AABBs
`[0,0,0]-[5,5,5]` and `[3,3,3]-[8,8,8]` produce the pair `(0, 1)` (in the
halved-cell-size branch the two objects share eight cells, and the
returned set still holds the pair once — the result is a `Finset`, the
model of the source's `HashSet`).  Second: the two far-apart boxes produce
no pair.  Third, the general law: for any grid state and `a ≠ b`, the
normalized pair `{a, b}` is returned iff some cell's list holds both —
i.e. exactly the pairs sharing at least one grid cell, each exactly
once. -/
theorem c4_potential_pairs_shared_cell :
    (∀ adj1 adj2 : SizeAdj, (0, 1) ∈ getPotentialPairs (c4OverlapState adj1 adj2).grid) ∧
    (∀ adj1 adj2 : SizeAdj, (0, 1) ∉ getPotentialPairs (c4FarState adj1 adj2).grid) ∧
    (∀ (grid : List (GridCell × List ℕ)) (a b : ℕ), a ≠ b →
      (normPair a b ∈ getPotentialPairs grid ↔ ∃ e ∈ grid, a ∈ e.2 ∧ b ∈ e.2)) := by
  refine ⟨fun adj1 adj2 => ?_, fun adj1 adj2 => ?_, mem_getPotentialPairs⟩
  · show normPair 0 1 ∈ _
    rw [mem_getPotentialPairs _ 0 1 (by omega)]
    cases adj1 <;> cases adj2 <;> decide
  · show normPair 0 1 ∉ _
    rw [mem_getPotentialPairs _ 0 1 (by omega)]
    cases adj1 <;> cases adj2 <;> decide

/-- Witness for claim C4's theorem: its general law applied to the
concrete one-cell grid `[(cell (0,0,0), [5, 9])]` and the object pair
`5 ≠ 9`, plus its overlap half at a concrete oracle choice. -/
theorem c4_potential_pairs_shared_cell_witness :
    (normPair 5 9 ∈ getPotentialPairs [(⟨0, 0, 0⟩, [5, 9])] ↔
      ∃ e ∈ [((⟨0, 0, 0⟩ : GridCell), [5, 9])], 5 ∈ e.2 ∧ 9 ∈ e.2) ∧
    (0, 1) ∈ getPotentialPairs (c4OverlapState SizeAdj.keep SizeAdj.keep).grid :=
  ⟨c4_potential_pairs_shared_cell.2.2 [(⟨0, 0, 0⟩, [5, 9])] 5 9 (by decide),
    c4_potential_pairs_shared_cell.1 SizeAdj.keep SizeAdj.keep⟩

/-- Claim C5: stale entries are not cleared.  After re-inserting object 0
with the far-away AABB `[100,100,100]-[101,101,101]`, the grid still lists
object 0 in cell `(0,0,0)` — a cell covered only by its first AABB — even
though the new AABB covers exactly cell `(10,10,10)`; only the
`object_cells` tracking list was reset to the new cells.  The code's own
comment says previous cells are cleared, but only the tracking list is. -/
theorem c5_insert_leaves_stale_grid_entries :
    (∃ e ∈ c5State.grid, e.1 = ⟨0, 0, 0⟩ ∧ 0 ∈ e.2) ∧
    GridCell.mk 0 0 0 ∉ cellsCovered c5State.cell_size ⟨100, 100, 100⟩ ⟨101, 101, 101⟩ ∧
    c5State.object_cells.getD 0 [] = [⟨10, 10, 10⟩] := by
  decide

/-! ## Theorems about the ECS bridge -/

theorem collectEntity_snapshot (e : BridgeEntity) :
    entitySnapshot (collectEntity e).1 = entitySnapshot e := by
  by_cases he : e.physics.enabled <;>
    rcases hpd : e.physics.particle_data with _ | pd <;>
    simp [collectEntity, he, hpd, entitySnapshot, PhysicsComponent.update_particle_data]

theorem collectParticles_snapshot (l : List BridgeEntity) :
    (collectParticles l).1.map entitySnapshot = l.map entitySnapshot := by
  induction l with
  | nil => rfl
  | cons e rest ih => simp [collectParticles, collectEntity_snapshot, ih]

/-- Claim C6: frame-skip atomicity of the bridge.  If the sync-to-GPU
response (`update_particles`) or the sync-from-GPU response
(`get_particle_data`) is an error, `update` returns before the write-back
loop, so every entity keeps its transform position and its physics
position, velocity and acceleration — no partial writes.  (The collection
phase may fill an absent `particle_data` cache, which is a forward cache
initialization, not a write-back of any of those fields.) -/
theorem c6_bridge_skips_frame_atomically (updRes : Except Unit Unit)
    (getRes : Except Unit (List ParticleB)) (world : List BridgeEntity)
    (h : (∃ e, updRes = Except.error e) ∨ ∃ e, getRes = Except.error e) :
    (bridgeUpdate updRes getRes world).1.map entitySnapshot = world.map entitySnapshot := by
  cases updRes with
  | error e => simp [bridgeUpdate, collectParticles_snapshot]
  | ok u =>
    cases getRes with
    | error e => simp [bridgeUpdate, collectParticles_snapshot]
    | ok newParticles =>
      rcases h with ⟨e, he⟩ | ⟨e, he⟩ <;> exact absurd he (by simp)

/-- Witness for claim C6's theorem: one enabled entity, a failing
`update_particles` response. -/
theorem c6_bridge_skips_frame_atomically_witness :
    (bridgeUpdate (Except.error ()) (Except.ok []) [c6Entity]).1.map entitySnapshot =
      [c6Entity].map entitySnapshot :=
  c6_bridge_skips_frame_atomically (Except.error ()) (Except.ok []) [c6Entity]
    (Or.inl ⟨(), rfl⟩)

/-! ## Theorems about collision detection and constraints -/

theorem Vec3q.sub_self (p : Vec3q) : p - p = 0 := by
  show Vec3q.mk (p.x - p.x) (p.y - p.y) (p.z - p.z) = Vec3q.mk 0 0 0
  simp

theorem Vec3q.dot_zero : Vec3q.dot 0 0 = 0 := by
  show (0 : ℚ) * 0 + 0 * 0 + 0 * 0 = 0
  norm_num

/-- Claim C7: rigid-soft operand-swap antisymmetry.  For every deformable
body and every rigid body, and every square-root model, the two call
orders of `detect_collision` agree on whether a manifold exists, and the
deformable-first manifold is exactly the rigid-first manifold with its
normal negated (both orders run the same
`detect_rigid_soft_collision`; the deformable-first arm maps the negation
over the result). -/
theorem c7_rigid_soft_swap_negates_normal (sq : ℚ → ℚ)
    (ps pps vs : List Vec3q) (ms : List ℚ) (rv : ℚ) (vols : List ℚ) (tets : List Tet4)
    (sbb : Vec4q) (rp rvel racc : Vec3q) (ro : Quatq) (rav raa : Vec3q) (rm : ℚ)
    (rit : Vec3q) (rbb : Vec4q) :
    ((detectCollision sq (PhysicsObjectQ.deformableBody ps pps vs ms rv vols tets sbb)
        (PhysicsObjectQ.rigidBody rp rvel racc ro rav raa rm rit rbb)).isSome ↔
      (detectCollision sq (PhysicsObjectQ.rigidBody rp rvel racc ro rav raa rm rit rbb)
        (PhysicsObjectQ.deformableBody ps pps vs ms rv vols tets sbb)).isSome) ∧
    detectCollision sq (PhysicsObjectQ.deformableBody ps pps vs ms rv vols tets sbb)
        (PhysicsObjectQ.rigidBody rp rvel racc ro rav raa rm rit rbb) =
      (detectCollision sq (PhysicsObjectQ.rigidBody rp rvel racc ro rav raa rm rit rbb)
        (PhysicsObjectQ.deformableBody ps pps vs ms rv vols tets sbb)).map
        (fun m => { m with normal := -m.normal }) := by
  constructor
  · simp [detectCollision]
  · rfl

/-- Claim C8: the CPU solver's numerical edge cases are no-ops, not
errors or panics.  First: `DistanceConstraint::project` with the two rigid
bodies at the same position (zero distance; `sqrt 0 = 0` is the one fact
assumed of the abstract square root) returns with the object list
untouched.  Second: with zero total mass it likewise returns the list
untouched, for every square-root model.  Third: `point_in_tetrahedron`
with a zero barycentric denominator returns `None`.  (`some` in the
`project` model is the absence of a panic.) -/
theorem c8_cpu_solver_edge_cases_noop :
    (∀ (sq : ℚ → ℚ), sq 0 = 0 →
      ∀ (c : DistanceConstraint) (objects : List PhysicsObjectQ)
        (p v1 a1 : Vec3q) (o1 : Quatq) (av1 aa1 : Vec3q) (m1 : ℚ) (it1 : Vec3q) (bb1 : Vec4q)
        (v2 a2 : Vec3q) (o2 : Quatq) (av2 aa2 : Vec3q) (m2 : ℚ) (it2 : Vec3q) (bb2 : Vec4q),
        objects.get? c.object1_index =
            some (PhysicsObjectQ.rigidBody p v1 a1 o1 av1 aa1 m1 it1 bb1) →
        objects.get? c.object2_index =
            some (PhysicsObjectQ.rigidBody p v2 a2 o2 av2 aa2 m2 it2 bb2) →
        c.project sq objects = some objects) ∧
    (∀ (sq : ℚ → ℚ) (c : DistanceConstraint) (objects : List PhysicsObjectQ)
        (p1 v1 a1 : Vec3q) (o1 : Quatq) (av1 aa1 : Vec3q) (m1 : ℚ) (it1 : Vec3q) (bb1 : Vec4q)
        (p2 v2 a2 : Vec3q) (o2 : Quatq) (av2 aa2 : Vec3q) (m2 : ℚ) (it2 : Vec3q) (bb2 : Vec4q),
        m1 + m2 = 0 →
        objects.get? c.object1_index =
            some (PhysicsObjectQ.rigidBody p1 v1 a1 o1 av1 aa1 m1 it1 bb1) →
        objects.get? c.object2_index =
            some (PhysicsObjectQ.rigidBody p2 v2 a2 o2 av2 aa2 m2 it2 bb2) →
        c.project sq objects = some objects) ∧
    (∀ (sq : ℚ → ℚ) (point t0 t1 t2 t3 : Vec3q), tetDenom t0 t1 t2 t3 = 0 →
        pointInTetrahedron sq point t0 t1 t2 t3 = none) := by
  refine ⟨?_, ?_, ?_⟩
  · intro sq hsq c objects p v1 a1 o1 av1 aa1 m1 it1 bb1 v2 a2 o2 av2 aa2 m2 it2 bb2 h1 h2
    have hd : Vec3q.length sq (p - p) = 0 := by
      rw [Vec3q.length, Vec3q.sub_self, Vec3q.dot_zero, hsq]
    unfold DistanceConstraint.project
    rw [h1, h2]
    simp [hd]
  · intro sq c objects p1 v1 a1 o1 av1 aa1 m1 it1 bb1 p2 v2 a2 o2 av2 aa2 m2 it2 bb2 hm h1 h2
    unfold DistanceConstraint.project
    rw [h1, h2]
    by_cases hd : Vec3q.length sq (p2 - p1) = 0
    · simp [hd]
    · simp [hd, hm]
  · intro sq point t0 t1 t2 t3 h
    simp [pointInTetrahedron, h]

/-- Witness for claim C8's theorem: its three parts applied at concrete
inputs — two coincident rigid bodies, two massless rigid bodies, and the
fully degenerate tetrahedron at the origin. -/
theorem c8_cpu_solver_edge_cases_noop_witness :
    DistanceConstraint.project sqZero ⟨0, 1, 5⟩ c8Objects1 = some c8Objects1 ∧
    DistanceConstraint.project sqZero ⟨0, 1, 1⟩ c8Objects2 = some c8Objects2 ∧
    pointInTetrahedron sqZero ⟨1, 0, 0⟩ 0 0 0 0 = none :=
  ⟨c8_cpu_solver_edge_cases_noop.1 sqZero rfl ⟨0, 1, 5⟩ c8Objects1 ⟨1, 1, 1⟩ 0 0 ⟨0, 0, 0, 1⟩
      0 0 1 0 ⟨0, 0, 0, 1⟩ 0 0 ⟨0, 0, 0, 1⟩ 0 0 1 0 ⟨0, 0, 0, 1⟩ rfl rfl,
    c8_cpu_solver_edge_cases_noop.2.1 sqZero ⟨0, 1, 1⟩ c8Objects2 ⟨0, 0, 0⟩ 0 0 ⟨0, 0, 0, 1⟩
      0 0 0 0 ⟨0, 0, 0, 1⟩ ⟨3, 0, 0⟩ 0 0 ⟨0, 0, 0, 1⟩ 0 0 0 0 ⟨0, 0, 0, 1⟩ (by norm_num)
      rfl rfl,
    c8_cpu_solver_edge_cases_noop.2.2 sqZero ⟨1, 0, 0⟩ 0 0 0 0 (by decide)⟩

/-! ## Theorems about GPU double buffering -/

/-- The invariant the buffer protocol maintains: an in-flight dispatch, if
any, is bound to the active half (the half `step` just flipped to), never
to the inactive half the CPU writes. -/
theorem traceSafe_of_inflight_active (ops : List GpuOp) :
    ∀ s : GpuBufState, (s.in_flight = none ∨ s.in_flight = some s.active) →
      traceSafe s ops = true := by
  induction ops with
  | nil => intro s _; rfl
  | cons op rest ih =>
    intro s hs
    cases op with
    | updateParticles =>
        have hsafe : updWriteSafe s = true := by
          rcases hs with h | h
          · simp [updWriteSafe, h]
          · simp only [updWriteSafe, h, cpuWriteHalf]
            cases s.active <;> rfl
        simp only [traceSafe, gpuApply, hsafe, Bool.true_and]
        exact ih s hs
    | step =>
        simp only [traceSafe, gpuApply, Bool.true_and]
        exact ih _ (Or.inr rfl)
    | getParticleData =>
        simp only [traceSafe, gpuApply, Bool.true_and]
        exact ih _ (Or.inl rfl)

/-- Claim C9: double-buffer non-aliasing.  For every sequence of
`update_particles` / `step` / `get_particle_data` calls on an initialized
system, the half being written by the CPU is never the half bound as the
in-flight dispatch's target. -/
theorem c9_double_buffer_non_aliasing (ops : List GpuOp) :
    traceSafe gpuInit ops = true :=
  traceSafe_of_inflight_active ops gpuInit (Or.inl rfl)

end AshEngine
